import Mathlib

/-!
# gpt-telegram: conversation handler, storage backends and dispatch loop

A shallow embedding of `internal/entity/conversation.go`, `pkg/openai.go`,
`internal/service.go`, `internal/repository/redis.go` and
`internal/repository/datastore.go`.

Conventions of the embedding.

* A Go `string` is the list of its bytes (`GoString`); `len` is `List.length`
  and `r[i:j]` is `goSlice r i j`.  Bytes are written as `Char` so that the
  ASCII literals of the source can be written as string literals.
* A Go `error` is represented by its `Error()` text; `fmt.Errorf("p: %w", e)`
  is `p ++ e`.
* `time.Time` values are integers (an instant on one time line); `Before` is `<`.
* The external collaborators of one turn (storage, completion provider, bot API,
  clock) are a record of their responses, `TurnEnv`.  The handler returns its
  result together with the trace of the calls it issued, in order.
* A run-time panic (nil dereference, index out of range) is the result `panic`.
-/

namespace GptTelegram

/-! ## Go strings -/

abbrev GoString := List Char

/-- Go slice expression `r[i:j]` for `i ≤ j ≤ len r`. -/
def goSlice (r : GoString) (i j : Nat) : GoString := (r.drop i).take (j - i)

/-- Go `strings.Contains(s, sub)`: `sub` occurs as a contiguous block of `s`. -/
def stringsContains (s sub : GoString) : Bool := s.tails.any (fun t => sub.isPrefixOf t)

/-- Go `fmt.Errorf(p + "%w", e)` on error texts. -/
def wrapError (p : String) (e : GoString) : GoString := p.toList ++ e

/-! ## entity/conversation.go -/

/-- The `gogpt.ChatCompletionMessage` fields the program sets. -/
structure ChatCompletionMessage where
  Role : GoString
  Content : GoString
deriving DecidableEq, Repr

/-- The `entity.Message` record (storage keys `K`, `RedisK` are not read by the code). -/
structure Message where
  ChatID : Int
  CreatedAt : Int
  IsResponse : Bool
  Text : GoString
deriving DecidableEq, Repr

/-- The `entity.Conversation` record. -/
structure Conversation where
  ChatID : Int
  Title : GoString
  CreatedAt : Int
  Messages : List Message
deriving DecidableEq, Repr

/-- Go `(*Message).ToGPTMessage`. -/
def Message.ToGPTMessage (m : Message) : ChatCompletionMessage :=
  let role : GoString := if m.IsResponse then "assistant".toList else "user".toList
  { Role := role, Content := m.Text }

/-- Go `(*Conversation).ToGPTMessages`: the loop appends one converted message per
stored message to an initially empty slice. -/
def Conversation.ToGPTMessages (c : Conversation) : List ChatCompletionMessage :=
  c.Messages.foldl
    (fun prompt m =>
      let role : GoString := if m.IsResponse then "assistant".toList else "user".toList
      prompt ++ [{ Role := role, Content := m.Text }])
    []

/-! ## pkg/openai.go -/

/-- Go `(*OpenAI).SystemPrompt`. -/
def SystemPrompt : ChatCompletionMessage :=
  { Role := "system".toList
    Content := "You are a useful chat assistant. Answers should be as detailed as possible using markdown formatting. Answers should consist of the following blocks (without explicitly mentioning the block name):\n1. Description of the topic/problem/question/object\n2. Detailed explanation of the answer to the problem\n3. Examples\n4. Criticism/Another point of view\n5. A summary\n\nRemember that you are an intelligent assistant, so all your answers must be scientifically validated, as if you were an expert in your field.".toList }

/-- Go `(*OpenAI).AddSystemPrompt`: `append([]T{SystemPrompt()}, messages...)`. -/
def AddSystemPrompt (messages : List ChatCompletionMessage) : List ChatCompletionMessage :=
  [SystemPrompt] ++ messages

/-- The `gogpt.ChatCompletionRequest` built by `CreateCompletionRequest`
(the constant `Temperature: 0.9` is left out: it is a float literal). -/
structure ChatCompletionRequest where
  Model : GoString
  User : GoString
  Messages : List ChatCompletionMessage
deriving DecidableEq, Repr

/-- The request `CreateCompletionRequest(user, messages)` hands to the provider. -/
def completionRequest (user : GoString) (messages : List ChatCompletionMessage) :
    ChatCompletionRequest :=
  { Model := "gpt-3.5-turbo".toList, User := user, Messages := AddSystemPrompt messages }

/-- Result of a call that may return a value, return an error, or panic. -/
inductive CallResult (α : Type) where
  | ok (a : α)
  | err (e : GoString)
  | panic
deriving DecidableEq, Repr

/-- Go `(*OpenAI).CreateCompletionRequest`, as a function of the provider's answer
(an error text, or the contents of `resp.Choices`): an error is wrapped, otherwise
the content of the last choice is returned; `resp.Choices[len-1]` on an empty
list is an index out of range. -/
def CreateCompletionRequest (resp : Except GoString (List GoString)) : CallResult GoString :=
  match resp with
  | .error e => .err (wrapError "failed to create completion request: " e)
  | .ok choices =>
    match choices.getLast? with
    | none => .panic
    | some content => .ok content

/-! ## Telegram types (go-telegram-bot-api) -/

structure User where
  ID : Int
  UserName : GoString
deriving DecidableEq, Repr

structure Chat where
  ID : Int
  ChatType : GoString
  Title : GoString
deriving DecidableEq, Repr

/-- Library `Chat.IsGroup`: the chat type is `"group"`. -/
def Chat.IsGroup (c : Chat) : Bool := c.ChatType == "group".toList

/-- The inbound `tgbotapi.Message`; `From` is a pointer that may be nil. -/
structure TgMessage where
  Chat : Chat
  From : Option User
  Text : GoString
deriving DecidableEq, Repr

/-- The inbound `tgbotapi.Update`; `Message` is nil for non-message updates. -/
structure Update where
  Message : Option TgMessage
deriving DecidableEq, Repr

/-- The outbound `tgbotapi.MessageConfig` fields the program sets. -/
structure MessageConfig where
  ChatID : Int
  Text : GoString
  ParseMode : GoString
deriving DecidableEq, Repr

/-- Library `tgbotapi.NewMessage(id, text)`: no parse mode. -/
def NewMessage (id : Int) (text : GoString) : MessageConfig :=
  { ChatID := id, Text := text, ParseMode := [] }

/-- Library constant `tgbotapi.ModeMarkdown`. -/
def ModeMarkdown : GoString := "Markdown".toList

/-! ## internal/service.go: one turn -/

/-- What `Repository.GetConversation` returns: a conversation, the sentinel
`ErrConversationNotFound` (with a nil conversation), or another error. -/
inductive GetResult where
  | found (c : Conversation)
  | notFound
  | failed (e : GoString)
deriving DecidableEq, Repr

/-- The responses of the collaborators during one turn.  `now k`, `chatCompletion k`,
`send k` and `createMessage k` answer the `k`-th call (from 0) of the turn to
`time.Now`, the completion provider, `bot.Send` and `repo.CreateMessage`; `none`
is a nil error. -/
structure TurnEnv where
  typing : Option GoString
  getConversation : GetResult
  createConversation : Option GoString
  now : Nat → Int
  chatCompletion : Nat → Except GoString (List GoString)
  deleteMessages : Option GoString
  send : Nat → Option GoString
  createMessage : Nat → Option GoString

/-- The calls a turn issues, in the order it issues them. -/
inductive Event where
  | typingAction (id : Int)
  | logError (text : GoString)
  | refresherStarted
  | getConversation (id : Int)
  | createConversation (c : Conversation)
  | completion (req : ChatCompletionRequest)
  | deleteMessages (id : Int)
  | doneSignal
  | send (msg : MessageConfig)
  | createMessage (m : Message)
deriving DecidableEq, Repr

/-- How `HandleTelegramMessage` ends: `return nil`, `return err`, or a panic. -/
inductive TurnResult where
  | ok
  | err (e : GoString)
  | panic
deriving DecidableEq, Repr

/-- Lines 46-52: the chat identity and label; `update.Message.From.ID` with a nil
`From` has no value (nil dereference). -/
def resolve (msg : TgMessage) : Option (Int × GoString) :=
  if msg.Chat.IsGroup then some (msg.Chat.ID, msg.Chat.Title)
  else
    match msg.From with
    | some u => some (u.ID, u.UserName)
    | none => none

/-- The text the handler compares completion errors against. -/
def reduceLengthText : GoString := "Please reduce the length of the messages".toList

/-- Lines 144-153, the inner loop from index `i`, with `n` sends issued so far:
returns the error of a failed send (wrapped), the sends issued, and the send count.
(The step `i += 4096` is written `4096 + i`; Go's `int` is 64 bits wide and a string
is far shorter than `2^63 - 4096`, so the additions do not wrap.) -/
def sendChunksInner (send : Nat → Option GoString) (id : Int) (r : GoString) (i n : Nat) :
    Option GoString × List Event × Nat :=
  if i < r.length then
    let stop := if i + 4096 > r.length then r.length else i + 4096
    let msg := NewMessage id (goSlice r i stop)
    match send n with
    | some e => (some (wrapError "failed to send message: " e), [Event.send msg], n + 1)
    | none =>
      let rest := sendChunksInner send id r (4096 + i) (n + 1)
      (rest.1, Event.send msg :: rest.2.1, rest.2.2)
  else (none, [], n)
termination_by r.length - i
decreasing_by all_goals (simp_wf; omega)

/-- Lines 143-154, the outer loop from index `i`: each iteration runs the whole
inner loop (whose own `i` shadows the outer one and starts at 0). -/
def sendChunksOuter (send : Nat → Option GoString) (id : Int) (r : GoString) (i n : Nat) :
    Option GoString × List Event × Nat :=
  if i < r.length then
    let inner := sendChunksInner send id r 0 n
    match inner.1 with
    | some e => (some e, inner.2.1, inner.2.2)
    | none =>
      let rest := sendChunksOuter send id r (4096 + i) inner.2.2
      (rest.1, inner.2.1 ++ rest.2.1, rest.2.2)
  else (none, [], n)
termination_by r.length - i
decreasing_by all_goals (simp_wf; omega)

/-- Lines 141-161: send the reply, split when longer than 4096. -/
def sendReply (send : Nat → Option GoString) (id : Int) (r : GoString) :
    Option GoString × List Event :=
  if r.length > 4096 then
    let res := sendChunksOuter send id r 0 0
    (res.1, res.2.1)
  else
    let msg := { NewMessage id r with ParseMode := ModeMarkdown }
    match send 0 with
    | some e => (some (wrapError "failed to send message: " e), [Event.send msg])
    | none => (none, [Event.send msg])

/-- Lines 163-178: persist the inbound message, then the reply (stamped `tReply`). -/
def persist (env : TurnEnv) (id : Int) (m : Message) (r : GoString) (tReply : Int) :
    TurnResult × List Event :=
  match env.createMessage 0 with
  | some e => (.err (wrapError "failed to create message: " e), [Event.createMessage m])
  | none =>
    let reply : Message := { ChatID := id, CreatedAt := tReply, IsResponse := true, Text := r }
    match env.createMessage 1 with
    | some e =>
      (.err (wrapError "failed to create message: " e),
        [Event.createMessage m, Event.createMessage reply])
    | none => (.ok, [Event.createMessage m, Event.createMessage reply])

/-- Lines 132-178: stop the typing refresher, send the reply, persist both messages. -/
def deliver (env : TurnEnv) (id : Int) (m : Message) (r : GoString) (tReply : Int) :
    TurnResult × List Event :=
  let sent := sendReply env.send id r
  match sent.1 with
  | some e => (.err e, Event.doneSignal :: sent.2)
  | none =>
    let saved := persist env id m r tReply
    (saved.1, Event.doneSignal :: sent.2 ++ saved.2)

/-- Lines 107-178: the completion call with its retry branch, then delivery.
`c` is the conversation with `m` already appended. -/
def completeAndDeliver (env : TurnEnv) (id : Int) (title : GoString) (c : Conversation)
    (m : Message) (tReply : Int) : TurnResult × List Event :=
  let first := Event.completion (completionRequest title c.ToGPTMessages)
  match CreateCompletionRequest (env.chatCompletion 0) with
  | .panic => (.panic, [first])
  | .ok r =>
    let rest := deliver env id m r tReply
    (rest.1, first :: rest.2)
  | .err e =>
    if stringsContains e reduceLengthText then
      match env.deleteMessages with
      | some e1 =>
        (.err (wrapError "failed to delete messages: " e1), [first, Event.deleteMessages id])
      | none =>
        let second := Event.completion (completionRequest title [m.ToGPTMessage])
        match CreateCompletionRequest (env.chatCompletion 1) with
        | .panic => (.panic, [first, Event.deleteMessages id, second])
        | .err e2 =>
          (.err (wrapError "failed to create completion request: " e2),
            [first, Event.deleteMessages id, second])
        | .ok r =>
          let rest := deliver env id m r tReply
          (rest.1, first :: Event.deleteMessages id :: second :: rest.2)
    else (.err (wrapError "failed to generate response: " e), [first])

/-- The events of lines 57-78: the first typing action (a failure is only logged)
and the start of the refresher goroutine. -/
def typingEvents (env : TurnEnv) (id : Int) : List Event :=
  match env.typing with
  | some _ =>
    [Event.typingAction id, Event.logError "failed to send typing action".toList,
      Event.refresherStarted]
  | none => [Event.typingAction id, Event.refresherStarted]

/-- Go `(*Service).HandleTelegramMessage`.  When `GetConversation` reports
`ErrConversationNotFound`, `c` stays nil: after a successful `CreateConversation`
the statement `c.Messages = append(c.Messages, m)` (line 105) dereferences nil. -/
def HandleTelegramMessage (env : TurnEnv) (update : Update) : TurnResult × List Event :=
  match update.Message with
  | none => (.panic, [])
  | some msg =>
    match resolve msg with
    | none => (.panic, [])
    | some (id, title) =>
      let pre := typingEvents env id ++ [Event.getConversation id]
      match env.getConversation with
      | .failed e => (.err (wrapError "failed to get conversation: " e), pre)
      | .notFound =>
        let conv : Conversation :=
          { ChatID := id, Title := title, CreatedAt := env.now 0, Messages := [] }
        match env.createConversation with
        | some e =>
          (.err (wrapError "failed to create conversation: " e),
            pre ++ [Event.createConversation conv])
        | none => (.panic, pre ++ [Event.createConversation conv])
      | .found c =>
        let m : Message :=
          { ChatID := id, CreatedAt := env.now 0, IsResponse := false, Text := msg.Text }
        let rest :=
          completeAndDeliver env id title { c with Messages := c.Messages ++ [m] } m (env.now 1)
        (rest.1, pre ++ rest.2)

/-! ## Projections of a trace -/

/-- The requests handed to the completion provider, in order. -/
def completionsOf : List Event → List ChatCompletionRequest
  | [] => []
  | Event.completion req :: es => req :: completionsOf es
  | _ :: es => completionsOf es

/-- The messages handed to `bot.Send`, in order. -/
def sendsOf : List Event → List MessageConfig
  | [] => []
  | Event.send msg :: es => msg :: sendsOf es
  | _ :: es => sendsOf es

/-- The messages handed to `repo.CreateMessage`, in order. -/
def createdMessagesOf : List Event → List Message
  | [] => []
  | Event.createMessage m :: es => m :: createdMessagesOf es
  | _ :: es => createdMessagesOf es

/-- The conversations handed to `repo.CreateConversation`, in order. -/
def createdConversationsOf : List Event → List Conversation
  | [] => []
  | Event.createConversation c :: es => c :: createdConversationsOf es
  | _ :: es => createdConversationsOf es

/-- The chat ids handed to `repo.DeleteMessages`, in order. -/
def deletesOf : List Event → List Int
  | [] => []
  | Event.deleteMessages id :: es => id :: deletesOf es
  | _ :: es => deletesOf es

/-- A trace all of whose events are sends. -/
def OnlySends (l : List Event) : Prop := ∀ e ∈ l, ∃ msg, e = Event.send msg

/-- The consecutive slices of `r` of width 4096 from index `i` on, as messages to
chat `id`: what one full pass of the inner loop sends. -/
def sliceMessages (id : Int) (r : GoString) (i : Nat) : List MessageConfig :=
  (List.range ((r.length - i + 4095) / 4096)).map
    (fun j => NewMessage id (goSlice r (i + 4096 * j) (min (i + 4096 * (j + 1)) r.length)))

/-! ## internal/service.go: the dispatch loop -/

/-- How `Run` ends: it returns (an error or nil), or a panic ends the process. -/
inductive RunResult where
  | returned (err : Option GoString)
  | crashed
deriving DecidableEq, Repr

/-- Go `(*Service).RunWebhook`, as a function of the result of registering the
webhook with the platform. -/
def RunWebhook (setWebhook : Option GoString) : Option GoString :=
  match setWebhook with
  | some e => some (wrapError "failed to set webhook: " e)
  | none => none

/-- Lines 198-209: the `for update := range updates` loop over the updates still to
come, the `k`-th update of the channel being next; `envs k` is the behaviour of the
collaborators during the turn of the `k`-th update.  Returns how the loop ends and
the updates `HandleTelegramMessage` was invoked on, in order.  The handler runs on
the loop's own goroutine and nothing recovers, so a panic ends the process. -/
def runLoop (envs : Nat → TurnEnv) : Nat → List Update → RunResult × List Update
  | _, [] => (.returned none, [])
  | k, update :: rest =>
    match update.Message with
    | none => runLoop envs (k + 1) rest
    | some _ =>
      match (HandleTelegramMessage (envs k) update).1 with
      | .panic => (.crashed, [update])
      | .err _ =>
        let later := runLoop envs (k + 1) rest
        (later.1, update :: later.2)
      | .ok =>
        let later := runLoop envs (k + 1) rest
        (later.1, update :: later.2)

/-- Go `(*Service).Run` on the finite sequence of updates the channel delivers
before it is closed. -/
def Run (useWebhook : Bool) (setWebhook : Option GoString) (envs : Nat → TurnEnv)
    (updates : List Update) : RunResult × List Update :=
  if useWebhook then
    match RunWebhook setWebhook with
    | some e => (.returned (some (wrapError "failed to run webhook: " e)), [])
    | none => runLoop envs 0 updates
  else runLoop envs 0 updates

/-! ## A Redis key space -/

/-- Go `fmt.Sprintf("%d", n)`. -/
def fmtInt (n : Int) : GoString := (toString n).toList

/-- Redis glob matching for patterns made of literal bytes and `*` (the only
metacharacter the patterns of this program contain): `*` matches any run of bytes. -/
def globMatch : GoString → GoString → Bool
  | [], key => key.isEmpty
  | p :: ps, key =>
    if p = '*' then key.tails.any (fun t => globMatch ps t)
    else
      match key with
      | [] => false
      | k :: ks => p == k && globMatch ps ks

/-- A Redis database: the keys with their values, each key at most once. -/
abbrev RedisStore (V : Type) := List (GoString × V)

/-- Redis `GET key`. -/
def redisGet {V : Type} (store : RedisStore V) (key : GoString) : Option V :=
  (store.find? (fun kv => kv.1 == key)).map (fun kv => kv.2)

/-- Redis `SET key value`: the key holds the new value, whatever it held before. -/
def redisSet {V : Type} (store : RedisStore V) (key : GoString) (value : V) : RedisStore V :=
  (key, value) :: store.filter (fun kv => !(kv.1 == key))

/-- Redis `DEL key ...`: removes the keys named, each taken literally. -/
def redisDel {V : Type} (store : RedisStore V) (keys : List GoString) : RedisStore V :=
  store.filter (fun kv => !(keys.contains kv.1))

/-- Redis `KEYS pattern`: the keys that match the glob pattern (in the order of
the store; a server may enumerate them in any order). -/
def redisKeys {V : Type} (store : RedisStore V) (pattern : GoString) : List GoString :=
  (store.map (fun kv => kv.1)).filter (fun key => globMatch pattern key)

/-! ## internal/repository/redis.go -/

/-- The key `fmt.Sprintf("conversation:%d", id)`. -/
def conversationKey (id : Int) : GoString := "conversation:".toList ++ fmtInt id

/-- The string `fmt.Sprintf("messages:%d:*", cid)`. -/
def messagesPattern (cid : Int) : GoString :=
  "messages:".toList ++ fmtInt cid ++ ":*".toList

/-- The key `fmt.Sprintf("messages:%d:%s", cid, u)`. -/
def messageKey (cid : Int) (u : GoString) : GoString :=
  "messages:".toList ++ fmtInt cid ++ ":".toList ++ u

/-- One pass of the inner loop of the library's insertion sort: the new last element
`x` is swapped towards the front while `less x y` holds for the element `y` before
it.  The sorted part is held back to front. -/
def bubbleDown {α : Type} (less : α → α → Bool) (x : α) : List α → List α
  | [] => [x]
  | y :: ys => if less x y then y :: bubbleDown less x ys else x :: y :: ys

/-- Library `sort.Slice(s, less)`, modelled by the insertion sort the library uses on
short slices (for longer ones it switches algorithm; the order of elements that
compare equal is not specified by the library). -/
def sortSlice {α : Type} (less : α → α → Bool) (s : List α) : List α :=
  (s.foldl (fun sorted x => bubbleDown less x sorted) []).reverse

/-- Lines 59-71 of redis.go: `GET` and decode each key, appending to `messages`;
the first failure is returned. -/
def loadMessages {V : Type} (store : RedisStore V) (unmarshal : V → Option Message) :
    List GoString → List Message → Except GoString (List Message)
  | [], messages => .ok messages
  | key :: keys, messages =>
    match redisGet store key with
    | none => .error "redis: nil".toList
    | some value =>
      match unmarshal value with
      | none => .error "json: cannot unmarshal".toList
      | some message => loadMessages store unmarshal keys (messages ++ [message])

/-- Go `(*RedisRepository).GetConversationMessages`, given the list `keys` that
`KEYS messages:<cid>:*` answered and the JSON decoder `unmarshal`. -/
def Redis.GetConversationMessages {V : Type} (store : RedisStore V)
    (unmarshal : V → Option Message) (keys : List GoString) : Except GoString (List Message) :=
  match loadMessages store unmarshal keys [] with
  | .error e => .error e
  | .ok messages =>
    .ok (sortSlice (fun a b => decide (a.CreatedAt < b.CreatedAt)) messages)

/-- Go `(*RedisRepository).DeleteMessages` on a reachable server: `DEL` of the one
key `messages:<cid>:*`. -/
def Redis.DeleteMessages {V : Type} (store : RedisStore V) (cid : Int) : RedisStore V :=
  redisDel store [messagesPattern cid]

/-- Go `(*RedisRepository).CreateMessage` on a reachable server, `u` being the UUID
string drawn and `marshal` the JSON encoder. -/
def Redis.CreateMessage {V : Type} (marshal : Message → V) (store : RedisStore V)
    (m : Message) (u : GoString) : Except GoString (RedisStore V) :=
  if u = [] then .error "failed to generate UUID".toList
  else .ok (redisSet store (messageKey m.ChatID u) (marshal m))

/-- The order the sorted part is kept in, back to front: no element is before
(in time) one that follows it in the list. -/
def NewestFirst (l : List Message) : Prop :=
  l.Pairwise (fun a b => ¬ a.CreatedAt < b.CreatedAt)

/-! ## internal/repository/datastore.go -/

/-- Datastore `Order(field)` on the `created_at` property: ascending, or descending
when the field name is prefixed with `-`. -/
def datastoreOrder (field : GoString) (entities : List Message) : List Message :=
  match field with
  | '-' :: _ => entities.insertionSort (fun a b => b.CreatedAt ≤ a.CreatedAt)
  | _ => entities.insertionSort (fun a b => a.CreatedAt ≤ b.CreatedAt)

/-- Go `(*DatastoreRepository).getConversationMessages` over the entities of kind
`messages`: `Filter("chat_id =", cid).Order("-created_at")`. -/
def Datastore.getConversationMessages (entities : List Message) (cid : Int) : List Message :=
  datastoreOrder "-created_at".toList (entities.filter (fun m => m.ChatID == cid))

/-- Go `(*DatastoreRepository).GetConversation` on a reachable server: the first
conversation entity with this chat id, with the messages attached. -/
def Datastore.GetConversation (conversations : List Conversation) (entities : List Message)
    (id : Int) : GetResult :=
  match conversations.filter (fun c => c.ChatID == id) with
  | [] => .notFound
  | c :: _ => .found { c with Messages := Datastore.getConversationMessages entities id }

/-! ## Sample inputs -/

/-- A private-chat message from user 7 (`alice`). -/
def sampleMessage : TgMessage :=
  { Chat := { ID := 7, ChatType := "private".toList, Title := [] }
    From := some { ID := 7, UserName := "alice".toList }
    Text := "hi".toList }

/-- The update carrying `sampleMessage`. -/
def sampleUpdate : Update := { Message := some sampleMessage }

/-- A turn for a chat identity with no stored conversation; every call succeeds. -/
def envNewChat : TurnEnv :=
  { typing := none
    getConversation := .notFound
    createConversation := none
    now := fun k => 100 + k
    chatCompletion := fun _ => .ok ["hello".toList]
    deleteMessages := none
    send := fun _ => none
    createMessage := fun _ => none }

/-- A reply text of length 5000. -/
def longReply : GoString := List.replicate 5000 'a'

/-- A stored conversation of user 7 with one earlier message. -/
def sampleConversation : Conversation :=
  { ChatID := 7, Title := "alice".toList, CreatedAt := 50,
    Messages := [{ ChatID := 7, CreatedAt := 60, IsResponse := false, Text := "yo".toList }] }

/-- A turn of a known chat whose completion answers `reply`; every call succeeds. -/
def envKnownChat (reply : GoString) : TurnEnv :=
  { envNewChat with
    getConversation := .found sampleConversation
    chatCompletion := fun _ => .ok [reply] }

/-- Three stored messages of chat 1 and one of chat 2, each value standing for the
JSON document of the message shown. -/
def sampleStore : RedisStore Message :=
  [ (messageKey 1 "c3".toList, { ChatID := 1, CreatedAt := 30, IsResponse := false, Text := "three".toList }),
    (messageKey 2 "zz".toList, { ChatID := 2, CreatedAt := 5, IsResponse := false, Text := "other".toList }),
    (messageKey 1 "a1".toList, { ChatID := 1, CreatedAt := 10, IsResponse := false, Text := "one".toList }),
    (messageKey 1 "b2".toList, { ChatID := 1, CreatedAt := 20, IsResponse := true, Text := "two".toList }) ]

/-- A provider error text reporting that the prompt is too long. -/
def tooLongError : GoString :=
  "This model's maximum context length is 4097 tokens. Please reduce the length of the messages.".toList

/-- A turn of a known chat whose first completion is rejected as too long and whose
retry answers `hello`; every other call succeeds. -/
def envTooLong : TurnEnv :=
  { envNewChat with
    getConversation := .found sampleConversation
    chatCompletion := fun k => if k = 0 then .error tooLongError else .ok ["hello".toList] }

/-- A turn during which the storage backend cannot be reached. -/
def envStorageDown : TurnEnv :=
  { envNewChat with getConversation := .failed "connection refused".toList }

/-- A turn of a known chat during which the completion provider fails. -/
def envCompletionDown : TurnEnv :=
  { envNewChat with
    getConversation := .found sampleConversation
    chatCompletion := fun _ => .error "rate limit reached".toList }

/-- Two stored message entities of chat 7, the older one first. -/
def sampleEntities : List Message :=
  [ { ChatID := 7, CreatedAt := 10, IsResponse := false, Text := "first".toList },
    { ChatID := 7, CreatedAt := 20, IsResponse := true, Text := "second".toList } ]

/-! ## Lemmas: strings and prompts -/

theorem ToGPTMessages_eq_map (c : Conversation) :
    c.ToGPTMessages = c.Messages.map Message.ToGPTMessage := by
  unfold Conversation.ToGPTMessages
  suffices h : ∀ (l : List Message) (acc : List ChatCompletionMessage),
      l.foldl (fun prompt m =>
        let role : GoString := if m.IsResponse then "assistant".toList else "user".toList
        prompt ++ [{ Role := role, Content := m.Text }]) acc
        = acc ++ l.map Message.ToGPTMessage by
    simpa using h c.Messages []
  intro l
  induction l with
  | nil => intro acc; simp
  | cons m ms ih =>
    intro acc
    simp only [List.foldl_cons, List.map_cons, ih]
    simp [Message.ToGPTMessage]

theorem stringsContains_iff (s sub : GoString) : stringsContains s sub = true ↔ sub <:+: s := by
  unfold stringsContains
  rw [List.any_eq_true, List.infix_iff_prefix_suffix]
  constructor
  · rintro ⟨t, ht, hp⟩
    exact ⟨t, List.isPrefixOf_iff_prefix.mp hp, (List.mem_tails _ _).mp ht⟩
  · rintro ⟨t, hp, ht⟩
    exact ⟨t, (List.mem_tails _ _).mpr ht, List.isPrefixOf_iff_prefix.mpr hp⟩

theorem stringsContains_wrapError (p : String) (e sub : GoString)
    (h : stringsContains e sub = true) : stringsContains (wrapError p e) sub = true := by
  rw [stringsContains_iff] at h ⊢
  exact h.trans (List.infix_append' p.toList e [] |> fun h => by simpa [wrapError] using h)

/-! ## Lemmas: traces and the send loops -/

theorem completionsOf_append (a b : List Event) :
    completionsOf (a ++ b) = completionsOf a ++ completionsOf b := by
  induction a with
  | nil => rfl
  | cons e es ih => cases e <;> simp [completionsOf, ih]

theorem sendsOf_append (a b : List Event) : sendsOf (a ++ b) = sendsOf a ++ sendsOf b := by
  induction a with
  | nil => rfl
  | cons e es ih => cases e <;> simp [sendsOf, ih]

theorem createdMessagesOf_append (a b : List Event) :
    createdMessagesOf (a ++ b) = createdMessagesOf a ++ createdMessagesOf b := by
  induction a with
  | nil => rfl
  | cons e es ih => cases e <;> simp [createdMessagesOf, ih]

theorem deletesOf_append (a b : List Event) :
    deletesOf (a ++ b) = deletesOf a ++ deletesOf b := by
  induction a with
  | nil => rfl
  | cons e es ih => cases e <;> simp [deletesOf, ih]

theorem OnlySends.projections {l : List Event} (h : OnlySends l) :
    completionsOf l = [] ∧ createdMessagesOf l = [] ∧ deletesOf l = [] := by
  induction l with
  | nil => exact ⟨rfl, rfl, rfl⟩
  | cons e es ih =>
    obtain ⟨msg, rfl⟩ := h e (List.mem_cons_self _ _)
    have := ih (fun e he => h e (List.mem_cons_of_mem _ he))
    simpa [completionsOf, createdMessagesOf, deletesOf] using this

theorem sendChunksInner_onlySends (send : Nat → Option GoString) (id : Int) (r : GoString)
    (i n : Nat) : OnlySends (sendChunksInner send id r i n).2.1 := by
  induction i, n using sendChunksInner.induct send id r with
  | case1 i n hlt e he =>
    rw [sendChunksInner]; simp only [hlt, if_true, he]
    intro x hx; simp at hx; exact ⟨_, hx⟩
  | case2 i n hlt he ih =>
    rw [sendChunksInner]; simp only [hlt, if_true, he]
    intro x hx
    rcases List.mem_cons.mp hx with rfl | hx
    · exact ⟨_, rfl⟩
    · exact ih x hx
  | case3 i n hlt =>
    rw [sendChunksInner]; simp only [hlt, if_false]
    intro x hx; simp at hx

theorem OnlySends.append {a b : List Event} (ha : OnlySends a) (hb : OnlySends b) :
    OnlySends (a ++ b) := by
  intro e he
  rcases List.mem_append.mp he with h | h
  · exact ha e h
  · exact hb e h

theorem sendChunksOuter_onlySends (send : Nat → Option GoString) (id : Int) (r : GoString)
    (i n : Nat) : OnlySends (sendChunksOuter send id r i n).2.1 := by
  induction i, n using sendChunksOuter.induct send id r with
  | case1 i n hlt inner e he =>
    rw [sendChunksOuter]; simp only [hlt, if_true]
    have he1 : (sendChunksInner send id r 0 n).1 = some e := he
    simp only [he1]
    exact sendChunksInner_onlySends send id r 0 n
  | case2 i n hlt inner he ih =>
    rw [sendChunksOuter]; simp only [hlt, if_true]
    have he1 : (sendChunksInner send id r 0 n).1 = none := he
    simp only [he1]
    exact (sendChunksInner_onlySends send id r 0 n).append ih
  | case3 i n hlt =>
    rw [sendChunksOuter]; simp only [hlt, if_false]
    intro x hx; simp at hx

theorem sendReply_onlySends (send : Nat → Option GoString) (id : Int) (r : GoString) :
    OnlySends (sendReply send id r).2 := by
  unfold sendReply
  split
  · exact sendChunksOuter_onlySends send id r 0 0
  · split <;> (intro x hx; simp at hx; exact ⟨_, hx⟩)

theorem sendChunksInner_ok (send : Nat → Option GoString) (id : Int) (r : GoString)
    (hsend : ∀ k, send k = none) (i n : Nat) : (sendChunksInner send id r i n).1 = none := by
  induction i, n using sendChunksInner.induct send id r with
  | case1 i n hlt e he => simp [hsend n] at he
  | case2 i n hlt he ih =>
    rw [sendChunksInner]; simp only [hlt, if_true, he]; exact ih
  | case3 i n hlt =>
    rw [sendChunksInner]; simp only [hlt, if_false]

theorem sendChunksOuter_ok (send : Nat → Option GoString) (id : Int) (r : GoString)
    (hsend : ∀ k, send k = none) (i n : Nat) : (sendChunksOuter send id r i n).1 = none := by
  induction i, n using sendChunksOuter.induct send id r with
  | case1 i n hlt inner e he =>
    have he1 : (sendChunksInner send id r 0 n).1 = some e := he
    rw [sendChunksInner_ok send id r hsend] at he1
    cases he1
  | case2 i n hlt inner he ih =>
    rw [sendChunksOuter]; simp only [hlt, if_true]
    have he1 : (sendChunksInner send id r 0 n).1 = none := he
    simp only [he1]; exact ih
  | case3 i n hlt =>
    rw [sendChunksOuter]; simp only [hlt, if_false]

theorem sendReply_ok (send : Nat → Option GoString) (id : Int) (r : GoString)
    (hsend : ∀ k, send k = none) : (sendReply send id r).1 = none := by
  unfold sendReply
  split
  · exact sendChunksOuter_ok send id r hsend 0 0
  · simp [hsend 0]

theorem sendReply_short (send : Nat → Option GoString) (id : Int) (r : GoString)
    (hlen : r.length ≤ 4096) :
    (sendReply send id r).2 = [Event.send { ChatID := id, Text := r, ParseMode := ModeMarkdown }] := by
  unfold sendReply
  rw [if_neg (by omega)]
  cases send 0 <;> simp [NewMessage]

/-! ## The handler: lemmas and claims -/

theorem typingEvents_projections (env : TurnEnv) (id : Int) :
    completionsOf (typingEvents env id) = [] ∧ sendsOf (typingEvents env id) = [] ∧
      createdMessagesOf (typingEvents env id) = [] ∧ deletesOf (typingEvents env id) = [] := by
  unfold typingEvents
  cases env.typing <;> simp [completionsOf, sendsOf, createdMessagesOf, deletesOf]

theorem persist_projections (env : TurnEnv) (id : Int) (m : Message) (r : GoString) (t : Int) :
    completionsOf (persist env id m r t).2 = [] ∧ sendsOf (persist env id m r t).2 = [] ∧
      deletesOf (persist env id m r t).2 = [] := by
  unfold persist
  cases env.createMessage 0 <;> cases env.createMessage 1 <;>
    simp [completionsOf, sendsOf, deletesOf]

theorem deliver_projections (env : TurnEnv) (id : Int) (m : Message) (r : GoString) (t : Int) :
    completionsOf (deliver env id m r t).2 = [] ∧ deletesOf (deliver env id m r t).2 = [] := by
  have hs := (sendReply_onlySends env.send id r).projections
  have hp := persist_projections env id m r t
  unfold deliver
  cases h : (sendReply env.send id r).1 <;> simp only [h] <;>
    simp [completionsOf, deletesOf, completionsOf_append, deletesOf_append, hs.1, hs.2.2, hp.1,
      hp.2.2]

theorem deliver_sends (env : TurnEnv) (id : Int) (m : Message) (r : GoString) (t : Int) :
    sendsOf (deliver env id m r t).2 = sendsOf (sendReply env.send id r).2 := by
  have hp := persist_projections env id m r t
  unfold deliver
  cases h : (sendReply env.send id r).1 <;> simp only [h] <;>
    simp [sendsOf, sendsOf_append, hp.2.1]

theorem handle_found (env : TurnEnv) (update : Update) (msg : TgMessage) (id : Int)
    (title : GoString) (c : Conversation)
    (hmsg : update.Message = some msg) (hid : resolve msg = some (id, title))
    (hget : env.getConversation = .found c) :
    HandleTelegramMessage env update =
      ((completeAndDeliver env id title
          { c with Messages := c.Messages ++
            [{ ChatID := id, CreatedAt := env.now 0, IsResponse := false, Text := msg.Text }] }
          { ChatID := id, CreatedAt := env.now 0, IsResponse := false, Text := msg.Text }
          (env.now 1)).1,
        typingEvents env id ++ [Event.getConversation id] ++
        (completeAndDeliver env id title
          { c with Messages := c.Messages ++
            [{ ChatID := id, CreatedAt := env.now 0, IsResponse := false, Text := msg.Text }] }
          { ChatID := id, CreatedAt := env.now 0, IsResponse := false, Text := msg.Text }
          (env.now 1)).2) := by
  unfold HandleTelegramMessage
  simp only [hmsg, hid, hget]

theorem completeAndDeliver_completions (env : TurnEnv) (id : Int) (title : GoString)
    (c : Conversation) (m : Message) (t : Int) :
    ∃ rest, completionsOf (completeAndDeliver env id title c m t).2 =
        completionRequest title c.ToGPTMessages :: rest ∧ rest.length ≤ 1 := by
  have hd := fun r => deliver_projections env id m r t
  unfold completeAndDeliver
  split
  · exact ⟨[], by simp [completionsOf], by simp⟩
  · exact ⟨[], by simp [completionsOf, (hd _).1], by simp⟩
  · split
    · split
      · exact ⟨[], by simp [completionsOf], by simp⟩
      · split
        · exact ⟨[completionRequest title [m.ToGPTMessage]], by simp [completionsOf], by simp⟩
        · exact ⟨[completionRequest title [m.ToGPTMessage]], by simp [completionsOf], by simp⟩
        · exact ⟨[completionRequest title [m.ToGPTMessage]],
            by simp [completionsOf, (hd _).1], by simp⟩
    · exact ⟨[], by simp [completionsOf], by simp⟩

theorem handle_completions_le (env : TurnEnv) (update : Update) :
    (completionsOf (HandleTelegramMessage env update).2).length ≤ 2 := by
  unfold HandleTelegramMessage
  have ht := fun id => typingEvents_projections env id
  split
  · simp [completionsOf]
  · split
    · simp [completionsOf]
    · split
      · simp [completionsOf_append, (ht _).1, completionsOf]
      · split <;> simp [completionsOf_append, (ht _).1, completionsOf]
      · rename_i c _
        simp only [completionsOf_append, (ht _).1, completionsOf, List.nil_append]
        obtain ⟨rest, h, hl⟩ := completeAndDeliver_completions env ‹_› ‹_›
          { c with Messages := c.Messages ++
            [{ ChatID := ‹_›, CreatedAt := env.now 0, IsResponse := false, Text := (‹TgMessage›).Text }] }
          { ChatID := ‹_›, CreatedAt := env.now 0, IsResponse := false, Text := (‹TgMessage›).Text }
          (env.now 1)
        rw [h]; simp; omega

/-- C9: for a conversation found with stored history `h` and inbound message `m`, the
first request handed to the completion provider carries exactly
`[SystemPrompt] ++ map ToGPTMessage (h ++ [m])`: its length is `len h + 2`, its first
element is the system message and no later element has role `system`, and the element
after position `i` has the text of the `i`-th message and role `assistant` when that
message is a response, `user` otherwise.  `Conversation.ToGPTMessages` is the map of
`Message.ToGPTMessage`, and `AddSystemPrompt` puts the system message in front of its
argument, which it leaves as it is.  The system message is the fixed one of the source:
its role is `system` and its content is the instruction text written out here. -/
theorem first_prompt_is_system_then_history (env : TurnEnv) (update : Update) (msg : TgMessage)
    (id : Int) (title : GoString) (c : Conversation)
    (hmsg : update.Message = some msg) (hid : resolve msg = some (id, title))
    (hget : env.getConversation = .found c) :
    let m : Message :=
      { ChatID := id, CreatedAt := env.now 0, IsResponse := false, Text := msg.Text }
    let all := c.Messages ++ [m]
    let sent := [SystemPrompt] ++ all.map Message.ToGPTMessage
    (completionsOf (HandleTelegramMessage env update).2).head? =
        some { Model := "gpt-3.5-turbo".toList, User := title, Messages := sent } ∧
      sent.length = c.Messages.length + 2 ∧
      sent.head? = some SystemPrompt ∧
      (∀ x ∈ sent.tail, x.Role ≠ "system".toList) ∧
      (∀ (i : Nat) (hi : i < all.length),
        sent[i + 1]? = some
          { Role := if (all.get ⟨i, hi⟩).IsResponse then "assistant".toList else "user".toList
            Content := (all.get ⟨i, hi⟩).Text }) ∧
      (∀ conv : Conversation, conv.ToGPTMessages = conv.Messages.map Message.ToGPTMessage) ∧
      (∀ l : List ChatCompletionMessage, AddSystemPrompt l = SystemPrompt :: l) ∧
      sent.head? = some
        { Role := "system".toList
          Content := "You are a useful chat assistant. Answers should be as detailed as possible using markdown formatting. Answers should consist of the following blocks (without explicitly mentioning the block name):\n1. Description of the topic/problem/question/object\n2. Detailed explanation of the answer to the problem\n3. Examples\n4. Criticism/Another point of view\n5. A summary\n\nRemember that you are an intelligent assistant, so all your answers must be scientifically validated, as if you were an expert in your field.".toList } ∧
      SystemPrompt.Role = "system".toList ∧
      (∀ l : List ChatCompletionMessage,
        ((AddSystemPrompt l).head?).map (fun x => x.Role) = some "system".toList ∧
          (AddSystemPrompt l).tail = l) := by
  intro m all sent
  refine ⟨?_, ?_, ?_, ?_, ?_, ToGPTMessages_eq_map, fun l => rfl, rfl, rfl,
    fun l => ⟨rfl, rfl⟩⟩
  · rw [handle_found env update msg id title c hmsg hid hget]
    obtain ⟨rest, h, -⟩ := completeAndDeliver_completions env id title
      { c with Messages := c.Messages ++ [m] } m (env.now 1)
    simp only [completionsOf_append, (typingEvents_projections env id).1, completionsOf,
      List.nil_append]
    rw [h]
    simp [completionRequest, AddSystemPrompt, ToGPTMessages_eq_map, sent, all]
  · simp [sent, all]
  · simp [sent]
  · intro x hx
    simp only [sent, List.singleton_append, List.tail_cons, List.mem_map] at hx
    obtain ⟨y, -, rfl⟩ := hx
    unfold Message.ToGPTMessage
    cases y.IsResponse <;> simp
  · intro i hi
    simp only [sent, List.singleton_append, List.getElem?_cons_succ]
    rw [List.getElem?_map, List.getElem?_eq_getElem hi]
    simp [Message.ToGPTMessage]

theorem CreateCompletionRequest_error (e : GoString) :
    CreateCompletionRequest (.error e) =
      .err (wrapError "failed to create completion request: " e) := rfl

/-- C7: when the reply `r` of a turn (from the first completion attempt or from the
retry) has length at most 4096, the handler hands exactly one message to `bot.Send`:
its text is `r`, its chat is the resolved id and its parse mode is Markdown; nothing
is sent with an empty parse mode. -/
theorem short_reply_sent_once_as_markdown (env : TurnEnv) (update : Update) (msg : TgMessage)
    (id : Int) (title : GoString) (c : Conversation) (r : GoString)
    (hmsg : update.Message = some msg) (hid : resolve msg = some (id, title))
    (hget : env.getConversation = .found c)
    (hreply : CreateCompletionRequest (env.chatCompletion 0) = .ok r ∨
      (∃ e, CreateCompletionRequest (env.chatCompletion 0) = .err e ∧
        stringsContains e reduceLengthText = true ∧ env.deleteMessages = none ∧
        CreateCompletionRequest (env.chatCompletion 1) = .ok r))
    (hlen : r.length ≤ 4096) :
    sendsOf (HandleTelegramMessage env update).2 =
        [{ ChatID := id, Text := r, ParseMode := ModeMarkdown }] ∧
      ModeMarkdown = "Markdown".toList ∧
      ∀ s ∈ sendsOf (HandleTelegramMessage env update).2, s.ParseMode ≠ [] := by
  have hsends : sendsOf (HandleTelegramMessage env update).2 =
      [{ ChatID := id, Text := r, ParseMode := ModeMarkdown }] := by
    rw [handle_found env update msg id title c hmsg hid hget]
    simp only [sendsOf_append, (typingEvents_projections env id).2.1, sendsOf, List.nil_append]
    unfold completeAndDeliver
    rcases hreply with h | ⟨e, h0, hc, hd, h1⟩
    · simp only [h, sendsOf, deliver_sends, sendReply_short env.send id r hlen]
    · simp only [h0, hc, hd, h1, if_true, sendsOf, deliver_sends,
        sendReply_short env.send id r hlen]
  refine ⟨hsends, rfl, ?_⟩
  intro s hs
  rw [hsends] at hs
  simp only [List.mem_singleton] at hs
  subst hs
  show ModeMarkdown ≠ []
  decide

/-- C3: no turn calls the completion provider more than twice.  When the first call
fails with an error whose text contains `Please reduce the length of the messages`,
the handler calls `DeleteMessages(id)` exactly once, right after that call and before
any other; if it fails the turn returns its error; otherwise exactly one retry follows,
whose message list is `[ToGPTMessage m]` for the inbound message `m`; if the retry
fails the turn returns its error.  In both failures nothing is sent or persisted. -/
theorem context_too_long_resets_then_retries_once (env : TurnEnv) (update : Update) :
    (completionsOf (HandleTelegramMessage env update).2).length ≤ 2 ∧
    ∀ (msg : TgMessage) (id : Int) (title : GoString) (c : Conversation) (e0 : GoString),
      update.Message = some msg → resolve msg = some (id, title) →
      env.getConversation = .found c → env.chatCompletion 0 = .error e0 →
      stringsContains e0 reduceLengthText = true →
      let m : Message :=
        { ChatID := id, CreatedAt := env.now 0, IsResponse := false, Text := msg.Text }
      let first := Event.completion
        (completionRequest title ((c.Messages ++ [m]).map Message.ToGPTMessage))
      let retry := Event.completion (completionRequest title [m.ToGPTMessage])
      let start := typingEvents env id ++
        [Event.getConversation id, first, Event.deleteMessages id]
      deletesOf (HandleTelegramMessage env update).2 = [id] ∧
      (∀ e1, env.deleteMessages = some e1 →
        HandleTelegramMessage env update =
          (.err (wrapError "failed to delete messages: " e1), start)) ∧
      (env.deleteMessages = none →
        ∃ rest, (HandleTelegramMessage env update).2 = start ++ retry :: rest ∧
          completionsOf rest = [] ∧ deletesOf rest = []) ∧
      (env.deleteMessages = none → ∀ e2, env.chatCompletion 1 = .error e2 →
        HandleTelegramMessage env update =
          (.err (wrapError "failed to create completion request: "
              (wrapError "failed to create completion request: " e2)), start ++ [retry])) ∧
      ((env.deleteMessages ≠ none ∨ ∃ e2, env.chatCompletion 1 = .error e2) →
        (∃ e, (HandleTelegramMessage env update).1 = .err e) ∧
          sendsOf (HandleTelegramMessage env update).2 = [] ∧
          createdMessagesOf (HandleTelegramMessage env update).2 = []) := by
  refine ⟨handle_completions_le env update, ?_⟩
  intro msg id title c e0 hmsg hid hget h0 hc m first retry start
  have hwrap : stringsContains (wrapError "failed to create completion request: " e0)
      reduceLengthText = true := stringsContains_wrapError _ _ _ hc
  have ht := typingEvents_projections env id
  have hfound := handle_found env update msg id title c hmsg hid hget
  have hcad : completeAndDeliver env id title { c with Messages := c.Messages ++ [m] } m
      (env.now 1) =
      match env.deleteMessages with
      | some e1 =>
        (.err (wrapError "failed to delete messages: " e1), [first, Event.deleteMessages id])
      | none =>
        match CreateCompletionRequest (env.chatCompletion 1) with
        | .panic => (.panic, [first, Event.deleteMessages id, retry])
        | .err e2 =>
          (.err (wrapError "failed to create completion request: " e2),
            [first, Event.deleteMessages id, retry])
        | .ok r =>
          ((deliver env id m r (env.now 1)).1,
            first :: Event.deleteMessages id :: retry :: (deliver env id m r (env.now 1)).2) := by
    unfold completeAndDeliver
    simp only [h0, CreateCompletionRequest_error, hwrap, if_true, ToGPTMessages_eq_map, first,
      retry]
  rw [hcad] at hfound
  have hdel1 : ∀ e1, env.deleteMessages = some e1 →
      HandleTelegramMessage env update =
        (.err (wrapError "failed to delete messages: " e1), start) := by
    intro e1 he1
    rw [hfound]; simp [he1, start]
  have hretry : env.deleteMessages = none →
      ∃ rest, HandleTelegramMessage env update =
          ((HandleTelegramMessage env update).1, start ++ retry :: rest) ∧
        completionsOf rest = [] ∧ deletesOf rest = [] ∧
        (∀ e2, env.chatCompletion 1 = .error e2 → rest = [] ∧
          (HandleTelegramMessage env update).1 =
            .err (wrapError "failed to create completion request: "
              (wrapError "failed to create completion request: " e2))) := by
    intro hd
    rw [hfound]; simp only [hd]
    cases h1 : CreateCompletionRequest (env.chatCompletion 1) with
    | panic =>
      refine ⟨[], by simp [start], rfl, rfl, ?_⟩
      intro e2 he2; rw [he2, CreateCompletionRequest_error] at h1; cases h1
    | err e =>
      refine ⟨[], by simp [start], rfl, rfl, ?_⟩
      intro e2 he2; rw [he2, CreateCompletionRequest_error] at h1
      cases h1; exact ⟨rfl, rfl⟩
    | ok r =>
      refine ⟨(deliver env id m r (env.now 1)).2, by simp [start],
        (deliver_projections env id m r _).1, (deliver_projections env id m r _).2, ?_⟩
      intro e2 he2; rw [he2, CreateCompletionRequest_error] at h1; cases h1
  refine ⟨?_, hdel1, ?_, ?_, ?_⟩
  · cases hd : env.deleteMessages with
    | some e1 =>
      rw [hdel1 e1 hd]; simp [start, deletesOf_append, ht.2.2.2, deletesOf, first]
    | none =>
      obtain ⟨rest, h, -, hr, -⟩ := hretry hd
      rw [h]
      simp [start, deletesOf_append, ht.2.2.2, deletesOf, first, retry, hr]
  · intro hd
    obtain ⟨rest, h, hc1, hr, -⟩ := hretry hd
    exact ⟨rest, by rw [h], hc1, hr⟩
  · intro hd e2 he2
    obtain ⟨rest, h, -, -, h2⟩ := hretry hd
    obtain ⟨rfl, hres⟩ := h2 e2 he2
    rw [h, hres]
  · rintro (hd | ⟨e2, he2⟩)
    · obtain ⟨e1, he1⟩ := Option.ne_none_iff_exists'.mp hd
      rw [hdel1 e1 he1]
      exact ⟨⟨_, rfl⟩, by simp [start, sendsOf_append, ht.2.1, sendsOf, first],
        by simp [start, createdMessagesOf_append, ht.2.2.1, createdMessagesOf, first]⟩
    · cases hd : env.deleteMessages with
      | some e1 =>
        rw [hdel1 e1 hd]
        exact ⟨⟨_, rfl⟩, by simp [start, sendsOf_append, ht.2.1, sendsOf, first],
          by simp [start, createdMessagesOf_append, ht.2.2.1, createdMessagesOf, first]⟩
      | none =>
        obtain ⟨rest, h, -, -, h2⟩ := hretry hd
        obtain ⟨rfl, hres⟩ := h2 e2 he2
        rw [h, hres]
        exact ⟨⟨_, rfl⟩, by simp [start, sendsOf_append, ht.2.1, sendsOf, first, retry],
          by simp [start, createdMessagesOf_append, ht.2.2.1, createdMessagesOf, first, retry]⟩

/-! ## Long replies -/

theorem sliceMessages_done (id : Int) (r : GoString) (i : Nat) (h : ¬ i < r.length) :
    sliceMessages id r i = [] := by
  unfold sliceMessages
  have : (r.length - i + 4095) / 4096 = 0 := by omega
  rw [this]; rfl

theorem sliceMessages_step (id : Int) (r : GoString) (i : Nat) (h : i < r.length) :
    sliceMessages id r i =
      NewMessage id (goSlice r i (if i + 4096 > r.length then r.length else i + 4096)) ::
        sliceMessages id r (4096 + i) := by
  unfold sliceMessages
  have hk : (r.length - i + 4095) / 4096 = (r.length - (4096 + i) + 4095) / 4096 + 1 := by omega
  rw [hk, List.range_succ_eq_map, List.map_cons, List.map_map]
  have hhead : min (i + 4096 * (0 + 1)) r.length =
      (if i + 4096 > r.length then r.length else i + 4096) := by
    split <;> omega
  have htail : ∀ j : Nat,
      ((fun j => NewMessage id (goSlice r (i + 4096 * j) (min (i + 4096 * (j + 1)) r.length))) ∘
          Nat.succ) j =
        NewMessage id
          (goSlice r (4096 + i + 4096 * j) (min (4096 + i + 4096 * (j + 1)) r.length)) := by
    intro j
    have h1 : i + 4096 * (j + 1) = 4096 + i + 4096 * j := by omega
    have h2 : i + 4096 * (j + 1 + 1) = 4096 + i + 4096 * (j + 1) := by omega
    simp only [Function.comp, Nat.succ_eq_add_one, h1, h2]
  rw [hhead, Nat.mul_zero, Nat.add_zero, List.map_congr_left (fun j _ => htail j)]

theorem sendChunksInner_sends (send : Nat → Option GoString) (id : Int) (r : GoString)
    (hsend : ∀ k, send k = none) (i n : Nat) :
    sendsOf (sendChunksInner send id r i n).2.1 = sliceMessages id r i := by
  induction i, n using sendChunksInner.induct send id r with
  | case1 i n hlt e he => simp [hsend n] at he
  | case2 i n hlt he ih =>
    rw [sendChunksInner, sliceMessages_step id r i hlt]
    simp only [hlt, if_true, he, sendsOf, ih]
  | case3 i n hlt =>
    rw [sendChunksInner, sliceMessages_done id r i hlt]
    simp only [hlt, if_false, sendsOf]

theorem sendChunksOuter_sends (send : Nat → Option GoString) (id : Int) (r : GoString)
    (hsend : ∀ k, send k = none) (i n : Nat) :
    sendsOf (sendChunksOuter send id r i n).2.1 =
      (List.replicate ((r.length - i + 4095) / 4096) (sliceMessages id r 0)).flatten := by
  induction i, n using sendChunksOuter.induct send id r with
  | case1 i n hlt inner e he =>
    have he1 : (sendChunksInner send id r 0 n).1 = some e := he
    rw [sendChunksInner_ok send id r hsend] at he1
    cases he1
  | case2 i n hlt inner he ih =>
    rw [sendChunksOuter]; simp only [hlt, if_true]
    have he1 : (sendChunksInner send id r 0 n).1 = none := he
    have hk : (r.length - i + 4095) / 4096 = (r.length - (4096 + i) + 4095) / 4096 + 1 := by
      omega
    simp only [he1, sendsOf_append, sendChunksInner_sends send id r hsend, hk,
      List.replicate_succ, List.flatten_cons]
    rw [ih]
  | case3 i n hlt =>
    rw [sendChunksOuter]; simp only [hlt, if_false, sendsOf]
    have : (r.length - i + 4095) / 4096 = 0 := by omega
    rw [this]; rfl

theorem flatten_sliceTexts (id : Int) (r : GoString) (i : Nat) :
    ((sliceMessages id r i).map (fun s => s.Text)).flatten = r.drop i := by
  generalize hd : r.length - i = d
  induction d using Nat.strong_induction_on generalizing i with
  | _ d ih =>
    by_cases hlt : i < r.length
    · rw [sliceMessages_step id r i hlt, List.map_cons, List.flatten_cons,
        ih (r.length - (4096 + i)) (by omega) (4096 + i) rfl]
      simp only [NewMessage, goSlice]
      split
      · have h1 : (List.drop i r).length ≤ r.length - i := by rw [List.length_drop]
        have h2 : r.length ≤ 4096 + i := by omega
        rw [List.take_of_length_le h1, List.drop_eq_nil_of_le h2]
        simp
      · have : 4096 + i = i + 4096 := by omega
        rw [this, Nat.add_sub_cancel_left, ← List.drop_drop, List.take_append_drop]
    · rw [sliceMessages_done id r i hlt, List.drop_eq_nil_of_le (by omega)]
      rfl

theorem goSlice_length (r : GoString) (i j : Nat) :
    (goSlice r i j).length = min (j - i) (r.length - i) := by
  simp [goSlice]

theorem sliceMessages_lengths (id : Int) (r : GoString) (i : Nat) :
    (sliceMessages id r i).map (fun s => s.Text.length) =
      (List.range ((r.length - i + 4095) / 4096)).map
        (fun j => min (min (i + 4096 * (j + 1)) r.length - (i + 4096 * j))
          (r.length - (i + 4096 * j))) := by
  unfold sliceMessages
  rw [List.map_map]
  apply List.map_congr_left
  intro j _
  simp only [Function.comp, NewMessage, goSlice_length]

/-- With every send succeeding, a reply longer than 4096 is sent as `k` copies of its
sequence of `k` slices, `k = ceil(len r / 4096)`. -/
theorem long_reply_sends (env : TurnEnv) (update : Update) (msg : TgMessage)
    (id : Int) (title : GoString) (c : Conversation) (r : GoString)
    (hmsg : update.Message = some msg) (hid : resolve msg = some (id, title))
    (hget : env.getConversation = .found c)
    (hreply : CreateCompletionRequest (env.chatCompletion 0) = .ok r)
    (hsend : ∀ k, env.send k = none) (hlen : r.length > 4096) :
    sendsOf (HandleTelegramMessage env update).2 =
      (List.replicate ((r.length + 4095) / 4096) (sliceMessages id r 0)).flatten := by
  rw [handle_found env update msg id title c hmsg hid hget]
  simp only [sendsOf_append, (typingEvents_projections env id).2.1, sendsOf, List.nil_append]
  unfold completeAndDeliver
  simp only [hreply, sendsOf, deliver_sends]
  unfold sendReply
  rw [if_pos hlen]
  exact sendChunksOuter_sends env.send id r hsend 0 0

/-- A turn whose conversation is found, whose first completion attempt answers `r` and
whose sends all succeed ends as its persistence step ends, and issues exactly the
storage writes of that step. -/
theorem handle_delivered (env : TurnEnv) (update : Update) (msg : TgMessage)
    (id : Int) (title : GoString) (c : Conversation) (r : GoString)
    (hmsg : update.Message = some msg) (hid : resolve msg = some (id, title))
    (hget : env.getConversation = .found c)
    (hreply : CreateCompletionRequest (env.chatCompletion 0) = .ok r)
    (hsend : ∀ k, env.send k = none) :
    (HandleTelegramMessage env update).1 =
        (persist env id
          { ChatID := id, CreatedAt := env.now 0, IsResponse := false, Text := msg.Text } r
          (env.now 1)).1 ∧
      createdMessagesOf (HandleTelegramMessage env update).2 =
        createdMessagesOf (persist env id
          { ChatID := id, CreatedAt := env.now 0, IsResponse := false, Text := msg.Text } r
          (env.now 1)).2 ∧
      deletesOf (HandleTelegramMessage env update).2 = [] := by
  have ht := typingEvents_projections env id
  have hs := (sendReply_onlySends env.send id r).projections
  have hp := persist_projections env id
    { ChatID := id, CreatedAt := env.now 0, IsResponse := false, Text := msg.Text } r (env.now 1)
  rw [handle_found env update msg id title c hmsg hid hget]
  unfold completeAndDeliver
  simp only [hreply]
  unfold deliver
  simp only [sendReply_ok env.send id r hsend]
  refine ⟨?_, ?_, ?_⟩
  · trivial
  · simp [createdMessagesOf_append, createdMessagesOf, ht.2.2.1, hs.2.1]
  · simp [deletesOf_append, deletesOf, ht.2.2.2, hs.2.2, hp.2.2]

/-- C2: the reply of length 5000 is sent as four messages, not two: the whole sequence
of slices (lengths 4096 and 904) goes out once per iteration of the outer loop, so the
texts sent do not concatenate to the reply. -/
theorem long_reply_5000_sent_twice_over :
    (sendsOf (HandleTelegramMessage (envKnownChat longReply) sampleUpdate).2).map
        (fun s => s.Text.length) = [4096, 904, 4096, 904] ∧
      longReply.length = 5000 ∧
      (HandleTelegramMessage (envKnownChat longReply) sampleUpdate).1 = TurnResult.ok := by
  have hl : longReply.length = 5000 := List.length_replicate _ _
  refine ⟨?_, hl, ?_⟩
  · rw [long_reply_sends (envKnownChat longReply) sampleUpdate sampleMessage 7 "alice".toList
      sampleConversation longReply rfl (by decide) rfl rfl (fun _ => rfl) (by rw [hl]; omega)]
    rw [hl, List.map_flatten, List.map_replicate, sliceMessages_lengths, hl]
    decide
  · rw [(handle_delivered (envKnownChat longReply) sampleUpdate sampleMessage 7 "alice".toList
      sampleConversation longReply rfl (by decide) rfl rfl (fun _ => rfl)).1]
    simp [persist, envKnownChat, envNewChat]

/-! ## New chats and the dispatch loop -/

/-- Whatever the collaborators answer, a turn whose conversation fetch reports
`ErrConversationNotFound` never ends normally, and never reaches the completion call,
the send or the persistence. -/
theorem handle_notFound_never_ok (env : TurnEnv) (update : Update)
    (hget : env.getConversation = .notFound) :
    (HandleTelegramMessage env update).1 ≠ TurnResult.ok ∧
      completionsOf (HandleTelegramMessage env update).2 = [] ∧
      sendsOf (HandleTelegramMessage env update).2 = [] ∧
      createdMessagesOf (HandleTelegramMessage env update).2 = [] := by
  have ht := fun id => typingEvents_projections env id
  unfold HandleTelegramMessage
  split
  · simp [completionsOf, sendsOf, createdMessagesOf]
  · split
    · simp [completionsOf, sendsOf, createdMessagesOf]
    · simp only [hget]
      split <;>
        simp [completionsOf_append, sendsOf_append, createdMessagesOf_append, (ht _).1,
          (ht _).2.1, (ht _).2.2.1, completionsOf, sendsOf, createdMessagesOf]

/-- C1: for a chat identity with no stored conversation the turn does not complete
normally.  With `GetConversation` reporting `ErrConversationNotFound` and
`CreateConversation` succeeding, the handler creates the conversation and then
panics on the nil conversation pointer: no completion request is sent and no message
is persisted. -/
theorem first_message_of_new_chat_panics :
    HandleTelegramMessage envNewChat sampleUpdate =
      (TurnResult.panic,
        [Event.typingAction 7, Event.refresherStarted, Event.getConversation 7,
          Event.createConversation
            { ChatID := 7, Title := "alice".toList, CreatedAt := 100, Messages := [] }]) ∧
      envNewChat.getConversation = GetResult.notFound ∧
      envNewChat.createConversation = none ∧
      createdConversationsOf (HandleTelegramMessage envNewChat sampleUpdate).2 =
        [{ ChatID := 7, Title := "alice".toList, CreatedAt := 100, Messages := [] }] ∧
      completionsOf (HandleTelegramMessage envNewChat sampleUpdate).2 = [] ∧
      createdMessagesOf (HandleTelegramMessage envNewChat sampleUpdate).2 = [] := by
  decide

/-- Without a panic the loop hands every update that carries a message to the handler,
in arrival order, and returns when the channel is closed. -/
theorem runLoop_handles_all (envs : Nat → TurnEnv) (updates : List Update) (k : Nat)
    (hpanic : ∀ (j : Nat) (hj : j < updates.length),
      (HandleTelegramMessage (envs (k + j)) (updates.get ⟨j, hj⟩)).1 ≠ TurnResult.panic ∨
        (updates.get ⟨j, hj⟩).Message = none) :
    runLoop envs k updates =
      (RunResult.returned none, updates.filter (fun u => u.Message.isSome)) := by
  induction updates generalizing k with
  | nil => rfl
  | cons u us ih =>
    have hrest : runLoop envs (k + 1) us =
        (RunResult.returned none, us.filter (fun u => u.Message.isSome)) := by
      apply ih
      intro j hj
      have := hpanic (j + 1) (by simp; omega)
      have hk : k + 1 + j = k + (j + 1) := by omega
      rw [hk]
      simpa using this
    have h0 := hpanic 0 (by simp)
    simp only [List.get_eq_getElem, List.getElem_cons_zero, Nat.add_zero] at h0
    unfold runLoop
    cases hm : u.Message with
    | none => simp [hm, hrest]
    | some msg =>
      simp only [hm, Option.isSome_some, List.filter_cons_of_pos]
      rcases h0 with h0 | h0
      · cases hres : (HandleTelegramMessage (envs k) u).1 with
        | panic => exact absurd hres h0
        | err e => simp [hrest, hm]
        | ok => simp [hrest, hm]
      · rw [hm] at h0; cases h0

/-- C10: a turn for a chat identity seen for the first time stops the dispatch loop.
Of two updates that both carry a message, only the first reaches the handler: its
panic ends the process, and the second update is never handled. -/
theorem new_chat_panic_stops_dispatch :
    Run false none (fun _ => envNewChat) [sampleUpdate, sampleUpdate] =
        (RunResult.crashed, [sampleUpdate]) ∧
      [sampleUpdate, sampleUpdate].filter (fun u => u.Message.isSome) =
        [sampleUpdate, sampleUpdate] := by
  decide

/-! ## Redis: sorting and loading -/

theorem bubbleDown_perm {α : Type} (less : α → α → Bool) (x : α) (l : List α) :
    (bubbleDown less x l).Perm (x :: l) := by
  induction l with
  | nil => exact List.Perm.refl _
  | cons y ys ih =>
    unfold bubbleDown
    split
    · exact (List.Perm.cons y ih).trans (List.Perm.swap x y ys)
    · exact List.Perm.refl _

theorem foldl_bubbleDown_perm {α : Type} (less : α → α → Bool) (s sorted : List α) :
    (s.foldl (fun sorted x => bubbleDown less x sorted) sorted).Perm (s.reverse ++ sorted) := by
  induction s generalizing sorted with
  | nil => exact List.Perm.refl _
  | cons x xs ih =>
    rw [List.foldl_cons, List.reverse_cons, List.append_assoc]
    exact (ih _).trans (List.Perm.append_left _ (bubbleDown_perm less x sorted))

theorem sortSlice_perm {α : Type} (less : α → α → Bool) (s : List α) :
    (sortSlice less s).Perm s := by
  unfold sortSlice
  refine (List.reverse_perm _).trans ?_
  have := foldl_bubbleDown_perm less s []
  rw [List.append_nil] at this
  exact this.trans (List.reverse_perm s)

theorem bubbleDown_newestFirst (x : Message) (l : List Message) (h : NewestFirst l) :
    NewestFirst (bubbleDown (fun a b => decide (a.CreatedAt < b.CreatedAt)) x l) := by
  induction l with
  | nil => simp [bubbleDown, NewestFirst]
  | cons y ys ih =>
    unfold NewestFirst at h ih ⊢
    rw [List.pairwise_cons] at h
    unfold bubbleDown
    split
    · rename_i hlt
      have hlt1 : x.CreatedAt < y.CreatedAt := by simpa using hlt
      rw [List.pairwise_cons]
      refine ⟨?_, ih h.2⟩
      intro z hz
      rcases List.mem_cons.mp ((bubbleDown_perm _ x ys).subset hz) with rfl | hz
      · omega
      · exact h.1 z hz
    · rename_i hlt
      have hlt1 : ¬ x.CreatedAt < y.CreatedAt := by simpa using hlt
      rw [List.pairwise_cons]
      refine ⟨?_, List.pairwise_cons.mpr h⟩
      intro z hz
      rcases List.mem_cons.mp hz with rfl | hz
      · exact hlt1
      · have := h.1 z hz
        omega

theorem sortSlice_sorted (s : List Message) :
    (sortSlice (fun a b => decide (a.CreatedAt < b.CreatedAt)) s).Pairwise
      (fun a b => ¬ b.CreatedAt < a.CreatedAt) := by
  unfold sortSlice
  rw [List.pairwise_reverse]
  suffices h : ∀ (s sorted : List Message), NewestFirst sorted →
      NewestFirst (s.foldl
        (fun sorted x => bubbleDown (fun a b => decide (a.CreatedAt < b.CreatedAt)) x sorted)
        sorted) from h s [] List.Pairwise.nil
  intro s
  induction s with
  | nil => intro sorted h; exact h
  | cons x xs ih =>
    intro sorted h
    rw [List.foldl_cons]
    exact ih _ (bubbleDown_newestFirst x sorted h)

theorem loadMessages_ok {V : Type} (store : RedisStore V) (unmarshal : V → Option Message)
    (keys : List GoString) (acc msgs : List Message)
    (h : loadMessages store unmarshal keys acc = .ok msgs) :
    msgs = acc ++ keys.filterMap (fun k => (redisGet store k).bind unmarshal) ∧
      ∀ k ∈ keys, ((redisGet store k).bind unmarshal).isSome = true := by
  induction keys generalizing acc with
  | nil =>
    simp only [loadMessages, Except.ok.injEq] at h
    simp [h]
  | cons k ks ih =>
    unfold loadMessages at h
    cases hg : redisGet store k with
    | none => simp [hg] at h
    | some v =>
      cases hu : unmarshal v with
      | none => simp [hg, hu] at h
      | some m =>
        simp only [hg, hu] at h
        obtain ⟨h1, h2⟩ := ih _ h
        refine ⟨?_, ?_⟩
        · rw [h1, List.filterMap_cons]; simp [hg, hu]
        · intro k1 hk1
          rcases List.mem_cons.mp hk1 with rfl | hk1
          · simp [hg, hu]
          · exact h2 k1 hk1

theorem loadMessages_total {V : Type} (store : RedisStore V) (unmarshal : V → Option Message)
    (keys : List GoString) (acc : List Message)
    (h : ∀ k ∈ keys, ((redisGet store k).bind unmarshal).isSome = true) :
    ∃ msgs, loadMessages store unmarshal keys acc = .ok msgs := by
  induction keys generalizing acc with
  | nil => exact ⟨acc, rfl⟩
  | cons k ks ih =>
    have hk := h k (List.mem_cons_self _ _)
    unfold loadMessages
    cases hg : redisGet store k with
    | none => simp [hg] at hk
    | some v =>
      cases hu : unmarshal v with
      | none => simp [hg, hu] at hk
      | some m =>
        simp only [hg, hu]
        exact ih _ (fun k1 hk1 => h k1 (List.mem_cons_of_mem _ hk1))

/-! ## Redis: reading messages back -/

theorem redisGet_of_mem_keys {V : Type} (store : RedisStore V) (pattern key : GoString)
    (h : key ∈ redisKeys store pattern) :
    ∃ v, redisGet store key = some v ∧ (key, v) ∈ store := by
  unfold redisKeys at h
  obtain ⟨hmem, -⟩ := List.mem_filter.mp h
  obtain ⟨kv, hkv, rfl⟩ := List.mem_map.mp hmem
  unfold redisGet
  cases hf : store.find? (fun x => x.1 == kv.1) with
  | none =>
    have := List.find?_eq_none.mp hf kv hkv
    simp at this
  | some x =>
    have hx := List.find?_some hf
    have hx1 : x.1 = kv.1 := by simpa using hx
    refine ⟨x.2, rfl, ?_⟩
    have := List.mem_of_find?_eq_some hf
    rw [← hx1]
    exact this

theorem filterMap_length_of_isSome {α β : Type} (f : α → Option β) (l : List α)
    (h : ∀ a ∈ l, (f a).isSome = true) : (l.filterMap f).length = l.length := by
  induction l with
  | nil => rfl
  | cons a as ih =>
    have ha := h a (List.mem_cons_self _ _)
    obtain ⟨b, hb⟩ := Option.isSome_iff_exists.mp ha
    rw [List.filterMap_cons, hb]
    simp [ih (fun x hx => h x (List.mem_cons_of_mem _ hx))]

/-- C6: in the Redis backend, whatever order `KEYS` enumerates the matching keys in
(`keys` is any permutation of them), a list returned by `GetConversationMessages` is
a permutation of the messages stored under those keys, one per key, and is sorted
ascending by `created_at`: no later element is before an earlier one.  It does return
a list whenever every value under a matching key decodes. -/
theorem redis_messages_sorted_permutation {V : Type} (store : RedisStore V)
    (unmarshal : V → Option Message) (cid : Int) (keys : List GoString)
    (hkeys : keys.Perm (redisKeys store (messagesPattern cid))) :
    let stored := (redisKeys store (messagesPattern cid)).filterMap
      (fun k => (redisGet store k).bind unmarshal)
    (∀ msgs, Redis.GetConversationMessages store unmarshal keys = .ok msgs →
        msgs.Perm stored ∧ msgs.length = keys.length ∧
        msgs.Pairwise (fun a b => ¬ b.CreatedAt < a.CreatedAt)) ∧
      ((∀ kv ∈ store, globMatch (messagesPattern cid) kv.1 = true →
          (unmarshal kv.2).isSome = true) →
        ∃ msgs, Redis.GetConversationMessages store unmarshal keys = .ok msgs) := by
  intro stored
  constructor
  · intro msgs h
    unfold Redis.GetConversationMessages at h
    cases hl : loadMessages store unmarshal keys [] with
    | error e => simp [hl] at h
    | ok loaded =>
      simp only [hl, Except.ok.injEq] at h
      obtain ⟨h1, h2⟩ := loadMessages_ok store unmarshal keys [] loaded hl
      rw [List.nil_append] at h1
      subst h
      refine ⟨?_, ?_, sortSlice_sorted loaded⟩
      · refine (sortSlice_perm _ loaded).trans ?_
        rw [h1]
        exact hkeys.filterMap _
      · rw [(sortSlice_perm _ loaded).length_eq, h1]
        exact filterMap_length_of_isSome _ keys h2
  · intro hdec
    have hall : ∀ k ∈ keys, ((redisGet store k).bind unmarshal).isSome = true := by
      intro k hk
      have hk1 : k ∈ redisKeys store (messagesPattern cid) := hkeys.subset hk
      obtain ⟨v, hv, hmem⟩ := redisGet_of_mem_keys store _ k hk1
      have hmatch : globMatch (messagesPattern cid) k = true :=
        (List.mem_filter.mp hk1).2
      rw [hv]
      exact hdec (k, v) hmem hmatch
    obtain ⟨loaded, hl⟩ := loadMessages_total store unmarshal keys [] hall
    exact ⟨_, by unfold Redis.GetConversationMessages; rw [hl]⟩

/-! ## Redis: keys, and what a turn persists -/

theorem globMatch_star (key : GoString) : globMatch ['*'] key = true := by
  unfold globMatch
  simp only [if_true, List.any_eq_true]
  exact ⟨[], (List.mem_tails _ _).mpr List.nil_suffix, rfl⟩

theorem globMatch_append_self (p rest key : GoString) (h : globMatch rest key = true) :
    globMatch (p ++ rest) (p ++ key) = true := by
  induction p with
  | nil => simpa using h
  | cons c ps ih =>
    rw [List.cons_append, List.cons_append]
    unfold globMatch
    split
    · rw [List.any_eq_true]
      exact ⟨ps ++ key, (List.mem_tails _ _).mpr (List.suffix_cons _ _), ih⟩
    · simp [ih]

theorem messageKey_matches (cid : Int) (u : GoString) :
    globMatch (messagesPattern cid) (messageKey cid u) = true := by
  have hp : messagesPattern cid = ("messages:".toList ++ fmtInt cid ++ ":".toList) ++ ['*'] := by
    unfold messagesPattern
    rw [List.append_assoc, List.append_assoc, List.append_assoc]
    rfl
  rw [hp]
  exact globMatch_append_self _ _ _ (globMatch_star u)

theorem messageKey_injective (cid : Int) (u1 u2 : GoString)
    (h : messageKey cid u1 = messageKey cid u2) : u1 = u2 :=
  List.append_cancel_left h

theorem redisGet_none {V : Type} (store : RedisStore V) (key : GoString)
    (h : redisGet store key = none) : ∀ kv ∈ store, kv.1 ≠ key := by
  intro kv hkv heq
  unfold redisGet at h
  rw [Option.map_eq_none'] at h
  have := List.find?_eq_none.mp h kv hkv
  simp [heq] at this

theorem redisKeys_redisSet_fresh {V : Type} (store : RedisStore V) (key : GoString) (v : V)
    (pattern : GoString) (hfresh : redisGet store key = none)
    (hmatch : globMatch pattern key = true) :
    redisKeys (redisSet store key v) pattern = key :: redisKeys store pattern := by
  have hne := redisGet_none store key hfresh
  have hfilter : store.filter (fun kv => !(kv.1 == key)) = store := by
    rw [List.filter_eq_self]
    intro kv hkv
    simpa using hne kv hkv
  unfold redisKeys redisSet
  rw [hfilter, List.map_cons, List.filter_cons]
  simp [hmatch]

theorem find?_filter_other {V : Type} (store : RedisStore V) (k1 k2 : GoString)
    (hne : k1 ≠ k2) :
    (store.filter (fun kv => !(kv.1 == k1))).find? (fun kv => kv.1 == k2) =
      store.find? (fun kv => kv.1 == k2) := by
  induction store with
  | nil => rfl
  | cons kv rest ih =>
    by_cases hk : kv.1 = k1
    · have hk1 : (!(kv.1 == k1)) = false := by simp [hk]
      have hk2 : (kv.1 == k2) = false := by rw [hk]; simpa using hne
      rw [List.filter_cons_of_neg (by simp [hk]), List.find?_cons_of_neg _ (by simp [hk2]), ih]
    · rw [List.filter_cons_of_pos (by simp [hk])]
      by_cases hq : kv.1 = k2
      · rw [List.find?_cons_of_pos _ (by simp [hq]), List.find?_cons_of_pos _ (by simp [hq])]
      · rw [List.find?_cons_of_neg _ (by simp [hq]), List.find?_cons_of_neg _ (by simp [hq]), ih]

theorem redisGet_redisSet_other {V : Type} (store : RedisStore V) (k1 k2 : GoString) (v : V)
    (hne : k1 ≠ k2) : redisGet (redisSet store k1 v) k2 = redisGet store k2 := by
  unfold redisGet redisSet
  rw [List.find?_cons_of_neg _ (by simpa using hne), find?_filter_other store k1 k2 hne]

/-- C8: in a turn whose conversation is found, whose completion succeeds at the first
attempt and whose sends succeed, the handler issues no `DeleteMessages` and persists
first the inbound message (`IsResponse = false`, the inbound text), then the reply
(`IsResponse = true`, the whole reply `r`, also when it was sent in slices), both under
the resolved chat id; if the first `CreateMessage` fails the turn returns that error
and the second is not attempted.  In the Redis backend the two writes, under fresh
distinct UUIDs, raise the number of message keys of the chat from N to N + 2. -/
theorem turn_persists_inbound_then_reply {V : Type} (env : TurnEnv) (update : Update)
    (msg : TgMessage) (id : Int) (title : GoString) (c : Conversation) (r : GoString)
    (marshal : Message → V) (store : RedisStore V) (u1 u2 : GoString)
    (hmsg : update.Message = some msg) (hid : resolve msg = some (id, title))
    (hget : env.getConversation = .found c)
    (hreply : CreateCompletionRequest (env.chatCompletion 0) = .ok r)
    (hsend : ∀ k, env.send k = none) :
    let m : Message :=
      { ChatID := id, CreatedAt := env.now 0, IsResponse := false, Text := msg.Text }
    let reply : Message :=
      { ChatID := id, CreatedAt := env.now 1, IsResponse := true, Text := r }
    deletesOf (HandleTelegramMessage env update).2 = [] ∧
      (env.createMessage 0 = none →
        createdMessagesOf (HandleTelegramMessage env update).2 = [m, reply] ∧
        (env.createMessage 1 = none → (HandleTelegramMessage env update).1 = TurnResult.ok)) ∧
      (∀ e, env.createMessage 0 = some e →
        (HandleTelegramMessage env update).1 =
            TurnResult.err (wrapError "failed to create message: " e) ∧
          createdMessagesOf (HandleTelegramMessage env update).2 = [m]) ∧
      (redisGet store (messageKey id u1) = none → redisGet store (messageKey id u2) = none →
        u1 ≠ [] → u2 ≠ [] → u1 ≠ u2 →
        ∃ store1 store2, Redis.CreateMessage marshal store m u1 = .ok store1 ∧
          Redis.CreateMessage marshal store1 reply u2 = .ok store2 ∧
          (redisKeys store2 (messagesPattern id)).length =
            (redisKeys store (messagesPattern id)).length + 2) := by
  intro m reply
  obtain ⟨hres, hcreated, hdel⟩ :=
    handle_delivered env update msg id title c r hmsg hid hget hreply hsend
  refine ⟨hdel, ?_, ?_, ?_⟩
  · intro h0
    rw [hres, hcreated]
    unfold persist
    simp only [h0]
    constructor
    · cases env.createMessage 1 <;> simp [createdMessagesOf, m, reply]
    · intro h1
      simp only [h1]
  · intro e h0
    rw [hres, hcreated]
    unfold persist
    simp only [h0]
    exact ⟨trivial, by simp [createdMessagesOf, m]⟩
  · intro hf1 hf2 hu1 hu2 hne
    have hkne : messageKey id u1 ≠ messageKey id u2 :=
      fun h => hne (messageKey_injective id u1 u2 h)
    refine ⟨redisSet store (messageKey id u1) (marshal m),
      redisSet (redisSet store (messageKey id u1) (marshal m)) (messageKey id u2)
        (marshal reply), ?_, ?_, ?_⟩
    · simp [Redis.CreateMessage, hu1, m]
    · simp [Redis.CreateMessage, hu2, reply]
    · have hf2a : redisGet (redisSet store (messageKey id u1) (marshal m)) (messageKey id u2) =
          none := by
        rw [redisGet_redisSet_other store _ _ _ hkne]; exact hf2
      rw [redisKeys_redisSet_fresh _ _ _ _ hf2a (messageKey_matches id u2),
        redisKeys_redisSet_fresh _ _ _ _ hf1 (messageKey_matches id u1)]
      simp

/-! ## Redis: deleting messages -/

/-- `DEL` leaves every key other than the one literally named `messages:<cid>:*`. -/
theorem redis_deleteMessages_keeps {V : Type} (store : RedisStore V) (cid : Int)
    (kv : GoString × V) (hkv : kv ∈ store) (hne : kv.1 ≠ messagesPattern cid) :
    kv ∈ Redis.DeleteMessages store cid := by
  unfold Redis.DeleteMessages redisDel
  rw [List.mem_filter]
  refine ⟨hkv, ?_⟩
  simp [hne]

/-- The key `CreateMessage` writes is the `DEL` argument only for the suffix `*`. -/
theorem messageKey_eq_pattern (cid : Int) (u : GoString)
    (h : messageKey cid u = messagesPattern cid) : u = ['*'] := by
  unfold messageKey messagesPattern at h
  have h2 : "messages:".toList ++ fmtInt cid ++ ":".toList ++ u =
      "messages:".toList ++ fmtInt cid ++ ":".toList ++ ['*'] := by
    rw [h, List.append_assoc ("messages:".toList ++ fmtInt cid)]
    rfl
  exact List.append_cancel_left h2

/-- The conversation record is not the key `DEL` names: `DeleteMessages` retains it. -/
theorem redis_deleteMessages_keeps_conversation {V : Type} (store : RedisStore V) (cid : Int)
    (v : V) (h : (conversationKey cid, v) ∈ store) :
    (conversationKey cid, v) ∈ Redis.DeleteMessages store cid := by
  apply redis_deleteMessages_keeps store cid _ h
  intro heq
  have h0 := congrArg List.head? heq
  simp [conversationKey, messagesPattern] at h0

/-- C4: in the Redis backend `DeleteMessages(1)` deletes no message.  `DEL` takes
`messages:1:*` as the name of one key, which no message has, so the store is unchanged
and `GetConversationMessages(1)` still returns the three messages of chat 1 instead of
the empty list. -/
theorem redis_deleteMessages_deletes_no_message :
    Redis.DeleteMessages sampleStore 1 = sampleStore ∧
      redisKeys (Redis.DeleteMessages sampleStore 1) (messagesPattern 1) =
        [messageKey 1 "c3".toList, messageKey 1 "a1".toList, messageKey 1 "b2".toList] ∧
      Redis.GetConversationMessages (Redis.DeleteMessages sampleStore 1) some
          (redisKeys (Redis.DeleteMessages sampleStore 1) (messagesPattern 1)) =
        .ok [ { ChatID := 1, CreatedAt := 10, IsResponse := false, Text := "one".toList },
              { ChatID := 1, CreatedAt := 20, IsResponse := true, Text := "two".toList },
              { ChatID := 1, CreatedAt := 30, IsResponse := false, Text := "three".toList } ] := by
  refine ⟨by decide, by decide, by rfl⟩

/-! ## Datastore: the order of the messages -/

/-- The query order `-created_at` yields the entities newest first. -/
theorem datastoreOrder_desc (entities : List Message) :
    (datastoreOrder "-created_at".toList entities).Pairwise
        (fun a b => b.CreatedAt ≤ a.CreatedAt) ∧
      (datastoreOrder "-created_at".toList entities).Perm entities := by
  have h : datastoreOrder "-created_at".toList entities =
      entities.insertionSort (fun a b => b.CreatedAt ≤ a.CreatedAt) := rfl
  rw [h]
  haveI : IsTotal Message (fun a b => b.CreatedAt ≤ a.CreatedAt) := ⟨fun a b => le_total _ _⟩
  haveI : IsTrans Message (fun a b => b.CreatedAt ≤ a.CreatedAt) :=
    ⟨fun a b c hab hbc => le_trans hbc hab⟩
  exact ⟨List.sorted_insertionSort _ entities, List.perm_insertionSort _ entities⟩

/-- C5: in the Datastore backend the message list attached by `GetConversation` is in
the order of the query `Order("-created_at")`, newest first: for a chat with messages
created at 10 and 20 the list is `[20, 10]`, so an earlier element is after a later
one. -/
theorem datastore_messages_newest_first :
    Datastore.getConversationMessages sampleEntities 7 =
        [ { ChatID := 7, CreatedAt := 20, IsResponse := true, Text := "second".toList },
          { ChatID := 7, CreatedAt := 10, IsResponse := false, Text := "first".toList } ] ∧
      Datastore.GetConversation [{ sampleConversation with Messages := [] }] sampleEntities 7 =
        GetResult.found
          { sampleConversation with
            Messages :=
              [ { ChatID := 7, CreatedAt := 20, IsResponse := true, Text := "second".toList },
                { ChatID := 7, CreatedAt := 10, IsResponse := false,
                  Text := "first".toList } ] } := by
  refine ⟨by decide, by decide⟩

/-! ## The typing refresher -/

/-- C11: a turn that fails before the completion succeeds returns without the stop
signal.  When the conversation fetch fails the handler returns the error after starting
the refresher, and the trace has no send on the done channel; likewise when the
completion call fails. -/
theorem failed_turn_never_signals_done :
    HandleTelegramMessage envStorageDown sampleUpdate =
        (TurnResult.err "failed to get conversation: connection refused".toList,
          [Event.typingAction 7, Event.refresherStarted, Event.getConversation 7]) ∧
      (HandleTelegramMessage envCompletionDown sampleUpdate).1 =
        TurnResult.err
          "failed to generate response: failed to create completion request: rate limit reached".toList ∧
      Event.refresherStarted ∈ (HandleTelegramMessage envCompletionDown sampleUpdate).2 ∧
      Event.doneSignal ∉ (HandleTelegramMessage envCompletionDown sampleUpdate).2 := by
  refine ⟨by decide, by decide, by decide, by decide⟩

/-! ## Instances of the claims, and the stop signal -/

/-- Witness for C9: the turn of `sampleUpdate` in a known chat answering `hello`. -/
theorem first_prompt_witness :
    sampleUpdate.Message = some sampleMessage ∧
      resolve sampleMessage = some (7, "alice".toList) ∧
      (envKnownChat "hello".toList).getConversation = GetResult.found sampleConversation ∧
      (completionsOf (HandleTelegramMessage (envKnownChat "hello".toList) sampleUpdate).2).head? =
        some
          { Model := "gpt-3.5-turbo".toList, User := "alice".toList,
            Messages := [SystemPrompt] ++
              (sampleConversation.Messages ++
                [({ ChatID := 7, CreatedAt := 100, IsResponse := false,
                    Text := "hi".toList } : Message)]).map Message.ToGPTMessage } :=
  ⟨rfl, by decide, rfl,
    (first_prompt_is_system_then_history (envKnownChat "hello".toList) sampleUpdate sampleMessage
      7 "alice".toList sampleConversation rfl (by decide) rfl).1⟩

/-- Witness for C7: the reply `hello` of the known chat is sent once, as Markdown. -/
theorem short_reply_witness :
    CreateCompletionRequest ((envKnownChat "hello".toList).chatCompletion 0) =
        CallResult.ok "hello".toList ∧
      "hello".toList.length ≤ 4096 ∧
      sendsOf (HandleTelegramMessage (envKnownChat "hello".toList) sampleUpdate).2 =
        [{ ChatID := 7, Text := "hello".toList, ParseMode := ModeMarkdown }] :=
  ⟨rfl, by decide,
    (short_reply_sent_once_as_markdown (envKnownChat "hello".toList) sampleUpdate sampleMessage
      7 "alice".toList sampleConversation "hello".toList rfl (by decide) rfl (Or.inl rfl)
      (by decide)).1⟩

/-- Witness for C3: a turn whose first completion is rejected as too long. -/
theorem context_too_long_witness :
    envTooLong.chatCompletion 0 = Except.error tooLongError ∧
      stringsContains tooLongError reduceLengthText = true ∧
      deletesOf (HandleTelegramMessage envTooLong sampleUpdate).2 = [7] :=
  ⟨rfl, by decide,
    ((context_too_long_resets_then_retries_once envTooLong sampleUpdate).2 sampleMessage 7
      "alice".toList sampleConversation tooLongError rfl (by decide) rfl rfl (by decide)).1⟩

/-- Witness for C8: the turn of `sampleUpdate` in a known chat answering `hello`. -/
theorem turn_persists_witness :
    CreateCompletionRequest ((envKnownChat "hello".toList).chatCompletion 0) =
        CallResult.ok "hello".toList ∧
      (∀ k, (envKnownChat "hello".toList).send k = none) ∧
      deletesOf (HandleTelegramMessage (envKnownChat "hello".toList) sampleUpdate).2 = [] ∧
      createdMessagesOf (HandleTelegramMessage (envKnownChat "hello".toList) sampleUpdate).2 =
        [ { ChatID := 7, CreatedAt := 100, IsResponse := false, Text := "hi".toList },
          { ChatID := 7, CreatedAt := 101, IsResponse := true, Text := "hello".toList } ] :=
  ⟨rfl, fun _ => rfl,
    (turn_persists_inbound_then_reply (envKnownChat "hello".toList) sampleUpdate sampleMessage 7
      "alice".toList sampleConversation "hello".toList id sampleStore "u1".toList "u2".toList
      rfl (by decide) rfl rfl (fun _ => rfl)).1,
    ((turn_persists_inbound_then_reply (envKnownChat "hello".toList) sampleUpdate sampleMessage 7
      "alice".toList sampleConversation "hello".toList id sampleStore "u1".toList "u2".toList
      rfl (by decide) rfl rfl (fun _ => rfl)).2.1 rfl).1⟩

/-- Witness for C6: the keys of chat 1 in `sampleStore`, enumerated in reverse. -/
theorem redis_messages_witness :
    (redisKeys sampleStore (messagesPattern 1)).reverse.Perm
        (redisKeys sampleStore (messagesPattern 1)) ∧
      ∃ msgs, Redis.GetConversationMessages sampleStore some
          (redisKeys sampleStore (messagesPattern 1)).reverse = .ok msgs :=
  ⟨by decide,
    (redis_messages_sorted_permutation sampleStore some 1
      (redisKeys sampleStore (messagesPattern 1)).reverse (by decide)).2
      (by intro kv _ _; rfl)⟩

/-- The trace of the delivery step starts with the stop signal. -/
theorem deliver_starts_with_done (env : TurnEnv) (id : Int) (m : Message) (r : GoString)
    (t : Int) : ∃ rest, (deliver env id m r t).2 = Event.doneSignal :: rest := by
  unfold deliver
  cases h : (sendReply env.send id r).1 <;> simp only [h] <;> exact ⟨_, rfl⟩

/-- Whenever the completion-and-delivery part of a turn sends anything, the stop
signal comes before the first send. -/
theorem completeAndDeliver_done (env : TurnEnv) (id : Int) (title : GoString)
    (c : Conversation) (m : Message) (t : Int)
    (h : sendsOf (completeAndDeliver env id title c m t).2 ≠ []) :
    ∃ pre post, (completeAndDeliver env id title c m t).2 = pre ++ Event.doneSignal :: post ∧
      sendsOf pre = [] := by
  unfold completeAndDeliver at h ⊢
  cases h0 : CreateCompletionRequest (env.chatCompletion 0) with
  | panic => simp [h0, sendsOf] at h
  | ok r =>
    simp only [h0]
    obtain ⟨rest, hrest⟩ := deliver_starts_with_done env id m r t
    rw [hrest]
    exact ⟨[_], rest, rfl, rfl⟩
  | err e =>
    simp only [h0] at h ⊢
    by_cases hcont : stringsContains e reduceLengthText = true
    · simp only [hcont, if_true] at h ⊢
      cases hd : env.deleteMessages with
      | some e1 => simp [hd, sendsOf] at h
      | none =>
        simp only [hd] at h ⊢
        cases h1 : CreateCompletionRequest (env.chatCompletion 1) with
        | panic => simp [h1, sendsOf] at h
        | err e2 => simp [h1, sendsOf] at h
        | ok r =>
          simp only [h1]
          obtain ⟨rest, hrest⟩ := deliver_starts_with_done env id m r t
          rw [hrest]
          exact ⟨[_, _, _], rest, rfl, rfl⟩
    · simp [hcont, sendsOf] at h

/-- Whenever a turn sends anything to the chat, the stop signal of the typing refresher
comes before the first send. -/
theorem done_precedes_sends (env : TurnEnv) (update : Update)
    (h : sendsOf (HandleTelegramMessage env update).2 ≠ []) :
    ∃ pre post, (HandleTelegramMessage env update).2 = pre ++ Event.doneSignal :: post ∧
      sendsOf pre = [] := by
  cases hmsg : update.Message with
  | none => simp [HandleTelegramMessage, hmsg, sendsOf] at h
  | some msg =>
    cases hid : resolve msg with
    | none => simp [HandleTelegramMessage, hmsg, hid, sendsOf] at h
    | some it =>
      obtain ⟨id, title⟩ := it
      have ht := typingEvents_projections env id
      cases hget : env.getConversation with
      | failed e =>
        simp [HandleTelegramMessage, hmsg, hid, hget, sendsOf, sendsOf_append, ht.2.1] at h
      | notFound =>
        exfalso
        apply h
        unfold HandleTelegramMessage
        simp only [hmsg, hid, hget]
        cases env.createConversation <;> simp [sendsOf, sendsOf_append, ht.2.1]
      | found c =>
        rw [handle_found env update msg id title c hmsg hid hget] at h ⊢
        simp only [sendsOf_append, ht.2.1, sendsOf, List.nil_append] at h
        obtain ⟨pre, post, hp, hs⟩ := completeAndDeliver_done env id title _ _ _ h
        refine ⟨typingEvents env id ++ [Event.getConversation id] ++ pre, post, ?_, ?_⟩
        · simp only [hp, List.append_assoc]
        · simp [sendsOf_append, ht.2.1, sendsOf, hs]

end GptTelegram
